import Mathlib

/-!
# Verification of the deferred task dependency core (`_task_handle.h`)

This file gives a shallow embedding of the lock-free task dependency core of
the oneTBB `task_handle` / `task_completion_handle` preview extension
(`include/oneapi/tbb/detail/_task_handle.h`) and proves properties of it.

The embedding is sequential: each C++ method body is translated as a pure
function on an explicit heap (`World`).  Every atomic read-modify-write in the
source (`exchange`, `compare_exchange_strong`, `fetch_add`, `fetch_sub`) is a
single step of the translated function; CAS loops are translated by their
uncontended execution, which is the behaviour of the sequential instance of
the code.  Machine integers (`std::size_t`, `std::uint64_t`, `std::uint32_t`)
are `Nat` with explicit reduction modulo `2 ^ 64` (resp. `2 ^ 32`) wherever
the source can overflow.

Heap objects (`task_handle_task`, `task_dynamic_state`, `continuation_vertex`)
are addressed by natural numbers; `Option` encodes nullable pointers and
deallocation.  The external collaborators of the header (the scheduler's
`spawn`, the small-object allocator, `d1::reference_vertex`) are modelled at
their specified interface: `spawn` calls are returned as an explicit list of
spawned task ids, allocation draws a fresh id from a counter, and finalized
successor nodes are returned as an explicit list.
-/

namespace TBB

/-- Cardinality of `std::uint64_t` / `std::size_t` (64-bit platform). -/
def UINT64_CARD : Nat := 2 ^ 64

/-- Cardinality of `std::uint32_t`. -/
def UINT32_CARD : Nat := 2 ^ 32

/-- Embeds `successor_list_node`: one element of the singly-linked successor
list.  The `m_next_successor` pointer is represented by the list structure in
which nodes are kept; `m_allocator` is dropped (allocation is modelled at the
heap level). -/
structure successor_list_node where
  m_continuation_vertex : Nat
deriving DecidableEq

/-- Embeds the tagged value stored in `task_dynamic_state::m_successor_list_head`:
either a real (possibly null) list pointer, or the all-ones `COMPLETED_FLAG`
sentinel.  `alive []` is the null pointer, `alive (n :: l)` a real head node,
`completed` the sentinel. -/
inductive successor_list_head_t where
  | alive (nodes : List successor_list_node)
  | completed
deriving DecidableEq

/-- Embeds `task_dynamic_state` (data members, lines 155-160 of the source). -/
structure task_dynamic_state where
  m_task : Nat
  m_successor_list_head : successor_list_head_t
  m_continuation_vertex : Option Nat
  m_new_dynamic_state : Option Nat
  m_num_references : Nat
deriving DecidableEq

/-- Embeds `continuation_vertex` (its own member `m_task` plus the inherited
`d1::reference_vertex::m_ref_count`). -/
structure continuation_vertex where
  m_task : Nat
  m_ref_count : Nat
deriving DecidableEq

/-- Embeds `task_handle_task`, keeping the member the dependency core reads
and writes (`m_dynamic_state`); the wait-tree vertex, context and traits word
are external collaborators that no verified claim depends on. -/
structure task_handle_task where
  m_dynamic_state : Option Nat
deriving DecidableEq

/-- Embeds `task_handle`: unique owner of a task; `m_handle` is the
`unique_ptr`, `none` when empty. -/
structure task_handle where
  m_handle : Option Nat
deriving DecidableEq

/-- Embeds `task_completion_handle`: shared co-owner of a dynamic state. -/
structure task_completion_handle where
  m_task_state : Option Nat
deriving DecidableEq

/-- The explicit heap: allocated tasks, dynamic states and continuation
vertices, indexed by numeric addresses, plus fresh-address counters for the
small-object allocator. -/
structure World where
  tasks : Nat → Option task_handle_task
  states : Nat → Option task_dynamic_state
  vertices : Nat → Option continuation_vertex
  next_state_id : Nat
  next_vertex_id : Nat

/-- Mutate the dynamic state stored at address `s` (no-op when unallocated). -/
def World.update_state (w : World) (s : Nat) (f : task_dynamic_state → task_dynamic_state) : World :=
  { w with states := fun i => if i = s then (w.states i).map f else w.states i }

/-- Deallocate the dynamic state at address `s` (`m_allocator.delete_object(this)`). -/
def World.remove_state (w : World) (s : Nat) : World :=
  { w with states := fun i => if i = s then none else w.states i }

/-- Mutate the continuation vertex stored at address `v` (no-op when unallocated). -/
def World.update_vertex (w : World) (v : Nat) (f : continuation_vertex → continuation_vertex) : World :=
  { w with vertices := fun i => if i = v then (w.vertices i).map f else w.vertices i }

/-- Deallocate the continuation vertex at address `v`. -/
def World.remove_vertex (w : World) (v : Nat) : World :=
  { w with vertices := fun i => if i = v then none else w.vertices i }

/-- Embeds `task_dynamic_state::is_completed` (source line 136): the head
value equals the `COMPLETED_FLAG` sentinel. -/
def task_dynamic_state.is_completed : successor_list_head_t → Bool
  | .completed => true
  | .alive _ => false

/-- Modelled from the spec: the predicate `is_alive(p) ≡ p != COMPLETED` used
by `check_transfer_or_completion` (source line 401) is not defined in the
header under `src/`; the spec defines it as the negation of the completed
test. -/
def is_alive (h : successor_list_head_t) : Bool :=
  !task_dynamic_state.is_completed h

/-- Modelled from the spec: `d1::reference_vertex::reserve` (external base
class of `continuation_vertex`, not under `src/`) — fetch-add one on
`m_ref_count`. -/
def continuation_vertex.reserve (w : World) (v : Nat) : World :=
  w.update_vertex v (fun vx => { vx with m_ref_count := (vx.m_ref_count + 1) % UINT64_CARD })

/-- Modelled from the spec: `d1::reference_vertex::release` (external base
class, not under `src/`) — fetch-sub one; when the resulting value is zero,
free the vertex without scheduling anything. -/
def continuation_vertex.release (w : World) (v : Nat) : World :=
  match w.vertices v with
  | none => w
  | some vx =>
    let r := (vx.m_ref_count + (UINT64_CARD - 1)) % UINT64_CARD
    if r = 0 then w.remove_vertex v
    else w.update_vertex v (fun _ => { vx with m_ref_count := r })

/-- Embeds `task_dynamic_state::reserve` (source line 83): `++m_num_references`. -/
def task_dynamic_state.reserve (w : World) (s : Nat) : World :=
  w.update_state s (fun st => { st with m_num_references := (st.m_num_references + 1) % UINT64_CARD })

/-- Embeds `task_dynamic_state::release` (source lines 85-93): decrement the
reference count; on the transition to zero, load `m_new_dynamic_state` and,
when it is set, release the forwarded state (the back-edge reservation taken
by `transfer_successors_to`), then free this state.  The recursion along the
forwarding chain is bounded by explicit fuel; every theorem below supplies
enough fuel for the chains it touches. -/
def task_dynamic_state.release : Nat → World → Nat → World
  | 0, w, _ => w
  | fuel + 1, w, s =>
    match w.states s with
    | none => w
    | some st =>
      let r := (st.m_num_references + (UINT64_CARD - 1)) % UINT64_CARD
      if r = 0 then
        let w1 := match st.m_new_dynamic_state with
          | some new_state => task_dynamic_state.release fuel w new_state
          | none => w
        w1.remove_state s
      else
        w.update_state s (fun st0 => { st0 with m_num_references := r })

/-- Embeds `task_dynamic_state::unset_dependency` (source lines 104-106). -/
def task_dynamic_state.unset_dependency (w : World) (s : Nat) : World :=
  w.update_state s (fun st => { st with m_continuation_vertex := none })

/-- Embeds `task_dynamic_state::has_dependencies` (source lines 100-102). -/
def task_dynamic_state.has_dependencies (w : World) (s : Nat) : Bool :=
  match w.states s with
  | some st => st.m_continuation_vertex.isSome
  | none => false

/-- Embeds `task_handle_task::get_dynamic_state` (source lines 215-233): read
`m_dynamic_state`; when null, allocate a fresh `task_dynamic_state` with
reference count 1 and CAS-install it (the sequential CAS succeeds). -/
def task_handle_task.get_dynamic_state (w : World) (t : Nat) : World × Nat :=
  match w.tasks t with
  | none => (w, 0)
  | some tk =>
    match tk.m_dynamic_state with
    | some s => (w, s)
    | none =>
      let s := w.next_state_id
      let new_state : task_dynamic_state :=
        { m_task := t, m_successor_list_head := .alive [], m_continuation_vertex := none,
          m_new_dynamic_state := none, m_num_references := 1 }
      ({ w with
          states := fun i => if i = s then some new_state else w.states i,
          tasks := fun i => if i = t then some { tk with m_dynamic_state := some s } else w.tasks i,
          next_state_id := s + 1 }, s)

/-- Embeds `task_dynamic_state::get_continuation_vertex` (source lines
114-131): read `m_continuation_vertex`; when null, allocate a fresh
`continuation_vertex` with reference count 1 (the "not yet submitted"
reservation, constructor lines 272-278) and CAS-install it. -/
def task_dynamic_state.get_continuation_vertex (w : World) (s : Nat) : World × Nat :=
  match w.states s with
  | none => (w, 0)
  | some st =>
    match st.m_continuation_vertex with
    | some v => (w, v)
    | none =>
      let v := w.next_vertex_id
      let new_vertex : continuation_vertex := { m_task := st.m_task, m_ref_count := 1 }
      ({ w with
          vertices := fun i => if i = v then some new_vertex else w.vertices i,
          states := fun i => if i = s then some { st with m_continuation_vertex := some v } else w.states i,
          next_vertex_id := v + 1 }, v)

/-- Embeds `continuation_vertex::release_bypass` (source lines 280-292):
`m_ref_count.fetch_sub(delta)`; on the transition to zero, clear the pending
dependency flag on the owned task's dynamic state, remember the task as the
bypass result and delete the vertex; otherwise return null.  `delta` is a
`std::uint32_t` widened to `std::uint64_t`. -/
def continuation_vertex.release_bypass (w : World) (v : Nat) (delta : Nat) : World × Option Nat :=
  match w.vertices v with
  | none => (w, none)
  | some vx =>
    let d := delta % UINT32_CARD
    let ref := (vx.m_ref_count + (UINT64_CARD - d % UINT64_CARD)) % UINT64_CARD
    if ref = 0 then
      let p := task_handle_task.get_dynamic_state w vx.m_task
      let w2 := task_dynamic_state.unset_dependency p.1 p.2
      (w2.remove_vertex v, some vx.m_task)
    else
      (w.update_vertex v (fun _ => { vx with m_ref_count := ref }), none)

/-- Embeds `task_dynamic_state::fetch_successor_list` (source lines 140-142):
atomically exchange `m_successor_list_head` with the given flag value,
returning the previous head.  Both call sites store `COMPLETED_FLAG`: line 96
passes it explicitly and line 150 calls the method with no argument, relying
on a default argument modelled from the spec (`L = succ_head.exchange(COMPLETED)`). -/
def task_dynamic_state.fetch_successor_list (w : World) (s : Nat)
    (new_list_state_flag : successor_list_head_t) : World × successor_list_head_t :=
  match w.states s with
  | none => (w, .alive [])
  | some st =>
    ({ w with states := fun i =>
        if i = s then some { st with m_successor_list_head := new_list_state_flag }
        else w.states i },
     st.m_successor_list_head)

/-- Result record of a completion/drain: the heap afterwards, the bypass task
returned to the caller, the tasks handed to the external scheduler via
`d1::spawn` (in call order), and the successor nodes finalized (in call
order).  `spawn` and `finalize` are external collaborators, so their
invocations are returned as explicit event lists. -/
structure completion_result where
  world : World
  bypass_task : Option Nat
  spawned : List Nat
  finalized : List successor_list_node

/-- Embeds the loop of `release_successor_list` (source lines 375-393) with
the `next_task` accumulator made explicit: for each node in list order,
`release_bypass` its continuation vertex and finalize it; the first non-null
released task is kept as the bypass result, every later non-null released
task is spawned. -/
def release_successor_list_aux (w : World) (next_task : Option Nat) :
    List successor_list_node → completion_result
  | [] => ⟨w, next_task, [], []⟩
  | node :: rest =>
    let p := continuation_vertex.release_bypass w node.m_continuation_vertex 1
    match p.2, next_task with
    | none, _ =>
      let q := release_successor_list_aux p.1 next_task rest
      ⟨q.world, q.bypass_task, q.spawned, node :: q.finalized⟩
    | some successor_task, none =>
      let q := release_successor_list_aux p.1 (some successor_task) rest
      ⟨q.world, q.bypass_task, q.spawned, node :: q.finalized⟩
    | some successor_task, some _ =>
      let q := release_successor_list_aux p.1 next_task rest
      ⟨q.world, q.bypass_task, successor_task :: q.spawned, node :: q.finalized⟩

/-- Embeds `release_successor_list` (source lines 375-393): the loop starts
with a null `next_task`. -/
def release_successor_list (w : World) (list : List successor_list_node) : completion_result :=
  release_successor_list_aux w none list

/-- Embeds `task_dynamic_state::complete_task` (source lines 95-98): exchange
the successor head with `COMPLETED_FLAG` and drain the claimed list.  When
the previous head was already the sentinel the C++ code would walk the
sentinel pointer (undefined behaviour); that branch is modelled as an empty
drain and is outside every theorem below. -/
def task_dynamic_state.complete_task (w : World) (s : Nat) : completion_result :=
  let p := task_dynamic_state.fetch_successor_list w s .completed
  match p.2 with
  | .alive list => release_successor_list p.1 list
  | .completed => ⟨p.1, none, [], []⟩

/-- Embeds `task_handle_task::complete_task` (source lines 235-243): when no
dynamic state was ever created the task completes silently with a null bypass;
otherwise delegate to the state. -/
def task_handle_task.complete_task (w : World) (t : Nat) : completion_result :=
  match w.tasks t with
  | none => ⟨w, none, [], []⟩
  | some tk =>
    match tk.m_dynamic_state with
    | none => ⟨w, none, [], []⟩
    | some s => task_dynamic_state.complete_task w s

/-- Embeds `task_dynamic_state::add_successor_node` (source lines 416-432)
with the body of `check_transfer_or_completion` (lines 398-414) inlined so
that the mutual recursion along the forwarding chain becomes structural on
explicit fuel.  When the observed head is not alive: if `m_new_dynamic_state`
is set, route the node to the receiving state; otherwise release the node's
vertex once (undoing the reserve of `add_successor`) and finalize the node.
When the head is alive, link the node in front (the sequential CAS succeeds
on the first attempt).  The finalized nodes are returned as an event list. -/
def task_dynamic_state.add_successor_node :
    Nat → World → Nat → successor_list_node → World × List successor_list_node
  | 0, w, _, _ => (w, [])
  | fuel + 1, w, s, new_successor_node =>
    match w.states s with
    | none => (w, [])
    | some st =>
      match st.m_successor_list_head with
      | .completed =>
        match st.m_new_dynamic_state with
        | some new_state =>
          task_dynamic_state.add_successor_node fuel w new_state new_successor_node
        | none =>
          (continuation_vertex.release w new_successor_node.m_continuation_vertex,
           [new_successor_node])
      | .alive current_successor_list =>
        (w.update_state s (fun st0 =>
           { st0 with m_successor_list_head := .alive (new_successor_node :: current_successor_list) }),
         [])

/-- Embeds `task_dynamic_state::check_transfer_or_completion` (source lines
398-414): when the observed head is not alive, either route the node to the
receiving state (`m_new_dynamic_state` set) or release its vertex once and
finalize it, returning true; otherwise do nothing and return false. -/
def task_dynamic_state.check_transfer_or_completion (fuel : Nat) (w : World) (s : Nat)
    (current_list_head : successor_list_head_t) (new_successor_node : successor_list_node) :
    World × Bool × List successor_list_node :=
  if is_alive current_list_head then (w, false, [])
  else
    match (match w.states s with | some st => st.m_new_dynamic_state | none => none) with
    | some new_state =>
      let p := task_dynamic_state.add_successor_node fuel w new_state new_successor_node
      (p.1, true, p.2)
    | none =>
      (continuation_vertex.release w new_successor_node.m_continuation_vertex, true,
       [new_successor_node])

/-- Embeds `task_dynamic_state::add_successor` (source lines 434-450): load
the head; when it is not completed, reserve the successor's vertex, allocate
a node for it and insert with `add_successor_node`; when it is completed,
delegate the whole call to the receiving state if successors were
transferred, else return with no effect. -/
def task_dynamic_state.add_successor :
    Nat → World → Nat → Nat → World × List successor_list_node
  | 0, w, _, _ => (w, [])
  | fuel + 1, w, s, successor =>
    match w.states s with
    | none => (w, [])
    | some st =>
      match st.m_successor_list_head with
      | .alive _ =>
        let w1 := continuation_vertex.reserve w successor
        let new_successor_node : successor_list_node := ⟨successor⟩
        task_dynamic_state.add_successor_node (fuel + 1) w1 s new_successor_node
      | .completed =>
        match st.m_new_dynamic_state with
        | some new_state => task_dynamic_state.add_successor fuel w new_state successor
        | none => (w, [])

/-- Embeds `task_dynamic_state::add_successor_list` (source lines 452-468):
splice a whole non-empty list in front of the current head by pointing the
incoming tail at the observed head and CAS-installing the incoming head (the
sequential CAS succeeds on the first attempt).  The splice does not re-check
completion: when the head is the `COMPLETED` sentinel the C++ code would link
the sentinel after the tail (the possibly-buggy behaviour recorded in the
spec's design notes); every theorem below only exercises alive targets. -/
def task_dynamic_state.add_successor_list (w : World) (s : Nat)
    (successor_list : List successor_list_node) : World :=
  match successor_list with
  | [] => w
  | _ :: _ =>
    match w.states s with
    | none => w
    | some st =>
      match st.m_successor_list_head with
      | .alive current_successor_list =>
        w.update_state s (fun st0 =>
          { st0 with m_successor_list_head := .alive (successor_list ++ current_successor_list) })
      | .completed =>
        w.update_state s (fun st0 =>
          { st0 with m_successor_list_head := .alive successor_list })

/-- Embeds `task_dynamic_state::transfer_successors_to` (source lines
144-152), in source order: reserve the new state (registering this state as a
co-owner), store the forwarding pointer, exchange the successor head with the
`COMPLETED` sentinel (claiming the pending list and sealing this state in one
step), and splice the claimed list into the new state.  When the previous
head was already the sentinel the C++ code would walk the sentinel inside
`add_successor_list` (undefined behaviour); that branch is modelled as a
no-op splice and is outside every theorem below. -/
def task_dynamic_state.transfer_successors_to (w : World) (s new_dynamic_state : Nat) : World :=
  match w.states s with
  | none => w
  | some _ =>
    let w1 := task_dynamic_state.reserve w new_dynamic_state
    let w2 := World.update_state w1 s
      (fun st => { st with m_new_dynamic_state := some new_dynamic_state })
    let p := task_dynamic_state.fetch_successor_list w2 s .completed
    match p.2 with
    | .alive successor_list =>
      task_dynamic_state.add_successor_list p.1 new_dynamic_state successor_list
    | .completed => p.1

/-- Embeds `task_dynamic_state::release_continuation` (source lines 470-480):
`release_bypass` the continuation vertex (consuming the "not yet submitted"
reservation); when that returns a task — all predecessors completed before
submission — hand it to the scheduler.  The spawned tasks are returned as an
event list.  A null vertex trips `__TBB_ASSERT` in debug builds; the model
makes that branch a no-op. -/
def task_dynamic_state.release_continuation (w : World) (s : Nat) : World × List Nat :=
  match (match w.states s with | some st => st.m_continuation_vertex | none => none) with
  | none => (w, [])
  | some current_vertex =>
    let p := continuation_vertex.release_bypass w current_vertex 1
    match p.2 with
    | some task => (p.1, [task])
    | none => (p.1, [])

/-- Embeds `task_handle_task::release_continuation` (source lines 245-250):
only when a dynamic state exists and it has pending dependencies does the
state-level release run. -/
def task_handle_task.release_continuation (w : World) (t : Nat) : World × List Nat :=
  match w.tasks t with
  | none => (w, [])
  | some tk =>
    match tk.m_dynamic_state with
    | none => (w, [])
    | some s =>
      if task_dynamic_state.has_dependencies w s
      then task_dynamic_state.release_continuation w s
      else (w, [])

/-- Result record of `task_handle_accessor::release`: the heap, the spawn
events, the raw task pointer handed back for scheduling, and the handle left
behind (emptied by `unique_ptr::release`). -/
structure release_result where
  world : World
  spawned : List Nat
  task_ptr : Option Nat
  handle : task_handle

/-- Embeds `task_handle_accessor::release` (source lines 335-340): first run
`release_continuation` on the owned task, then release the `unique_ptr`,
returning the raw task pointer.  Calling it on an empty handle dereferences a
null `unique_ptr` in C++; that branch is modelled as a no-op and is outside
every theorem below. -/
def task_handle_accessor.release (w : World) (th : task_handle) : release_result :=
  match th.m_handle with
  | none => ⟨w, [], none, th⟩
  | some t =>
    let p := task_handle_task.release_continuation w t
    ⟨p.1, p.2, some t, ⟨none⟩⟩

/-- Embeds `internal_set_task_order` (source lines 163-166):
`pred->add_successor(succ->get_continuation_vertex())`. -/
def internal_set_task_order (fuel : Nat) (w : World) (pred succ : Nat) :
    World × List successor_list_node :=
  let p := task_dynamic_state.get_continuation_vertex w succ
  task_dynamic_state.add_successor fuel p.1 pred p.2

/-- Embeds `explicit operator bool` of `task_completion_handle` (source line 547). -/
def task_completion_handle.to_bool (h : task_completion_handle) : Bool :=
  h.m_task_state.isSome

/-- Embeds `operator==(const task_completion_handle&, std::nullptr_t)`
(source lines 549-551). -/
def task_completion_handle.eq_nullptr (h : task_completion_handle) : Bool :=
  h.m_task_state.isNone

/-- Embeds the move constructor of `task_completion_handle` (source lines
492-496): steal the state pointer and null the source; no reserve, no
release.  Returns the heap, the constructed handle and the moved-from handle. -/
def task_completion_handle.move_construct (w : World) (other : task_completion_handle) :
    World × task_completion_handle × task_completion_handle :=
  (w, ⟨other.m_task_state⟩, ⟨none⟩)

/-- Embeds the move assignment of `task_completion_handle` (source lines
523-532).  `same_object` models the C++ address test `this == &other`: when
true the body is skipped entirely; otherwise the previously tracked state is
released, the pointer is stolen and the source is nulled.  Returns the heap,
the assigned-to handle and the moved-from handle. -/
def task_completion_handle.move_assign (fuel : Nat) (w : World)
    (this_handle other : task_completion_handle) (same_object : Bool) :
    World × task_completion_handle × task_completion_handle :=
  if same_object then (w, this_handle, other)
  else
    let w1 := match this_handle.m_task_state with
      | some s => task_dynamic_state.release fuel w s
      | none => w
    (w1, ⟨other.m_task_state⟩, ⟨none⟩)

/-- Possible outcomes of running the converting constructor
`task_completion_handle(const task_handle&)`. -/
inductive completion_handle_construction_outcome where
  | null_handle_dereference
  | assertion_failure
  | constructed (handle : task_completion_handle)
deriving DecidableEq

/-- Embeds the converting constructor `task_completion_handle(const
task_handle&)` (source lines 498-504) with C++ evaluation order: the member
initializer `m_task_state(th.m_handle->get_dynamic_state())` runs before the
constructor body, so on an empty handle the null `unique_ptr` is dereferenced
before control can ever reach the body's
`__TBB_ASSERT(th, "Construction of task_completion_handle from an empty task_handle")`;
on a non-empty handle the assertion passes and the new co-owner reserves the
state. -/
def task_completion_handle.from_task_handle (w : World) (th : task_handle) :
    World × completion_handle_construction_outcome :=
  match th.m_handle with
  | none => (w, .null_handle_dereference)
  | some t =>
    let p := task_handle_task.get_dynamic_state w t
    let w2 := task_dynamic_state.reserve p.1 p.2
    (w2, .constructed ⟨some p.2⟩)

/-! ## Per-vertex reference-count trace model

Every `spawn` (and every return-for-bypass) of a task reachable through the
dependency graph is guarded by `continuation_vertex::release_bypass` returning
that task: in `release_successor_list` (source lines 380-389), in
`task_dynamic_state::release_continuation` (lines 473-479) and nowhere else.
`release_bypass` returns the task exactly when its atomic `fetch_sub` brings
`m_ref_count` to zero, and both it and `reference_vertex::release` free the
vertex at that same transition, so no further operation on the vertex can
occur in its lifetime.  The trace model below records exactly the atomic
read-modify-writes the source performs on one vertex's `m_ref_count`, in the
order the hardware serialises them, and so covers every concurrent
interleaving of edge additions, predecessor completions, transfers and the
submission path touching that vertex. -/

/-- One atomic operation on a continuation vertex's `m_ref_count`:
`reserve` (`fetch_add 1`, from `add_successor`), `release_bypass delta`
(`fetch_sub delta`), or the plain inherited `release` (`fetch_sub 1`, from the
late-completion cleanup path). -/
inductive vertex_event where
  | reserve
  | release_bypass (delta : Nat)
  | release
deriving DecidableEq

/-- The `m_ref_count` value after one atomic event, with `std::uint64_t`
wrap-around, mirroring the arithmetic of `continuation_vertex.release_bypass`
and `continuation_vertex.reserve`. -/
def vertex_event.apply (c : Nat) : vertex_event → Nat
  | .reserve => (c + 1) % UINT64_CARD
  | .release_bypass delta => (c + (UINT64_CARD - (delta % UINT32_CARD) % UINT64_CARD)) % UINT64_CARD
  | .release => (c + (UINT64_CARD - 1)) % UINT64_CARD

/-- The `m_ref_count` value after a prefix of the event trace, starting from
the constructor's initial count. -/
def count_after (init : Nat) (events : List vertex_event) : Nat :=
  events.foldl vertex_event.apply init

/-- Whether the event at position `i` of the trace is a `release_bypass`
whose `fetch_sub` hits zero — exactly the condition under which
`release_bypass` returns the task for spawn or bypass (source line 285). -/
def returns_task_at (init : Nat) (events : List vertex_event) (i : Nat) : Bool :=
  match events[i]? with
  | some (vertex_event.release_bypass _) =>
    decide (count_after init (events.take (i + 1)) = 0)
  | _ => false

/-- A trace is live-before-each-event when the count is non-zero before every
event: both `release_bypass` and `release` delete the vertex at the
transition to zero, so no operation can be applied to a vertex whose count
has already reached zero. -/
def live_trace (init : Nat) (events : List vertex_event) : Prop :=
  ∀ i, i < events.length → count_after init (events.take i) ≠ 0

/-! ## Characterization helpers used by theorem statements -/

/-- Characterization of the drain: the tasks that the successive
`release_bypass` calls of `release_successor_list` return, in list order,
threading the heap exactly as the loop does.  Used only to state theorems
about which released task becomes the bypass result and which are spawned. -/
def released_tasks (w : World) : List successor_list_node → List Nat
  | [] => []
  | node :: rest =>
    let p := continuation_vertex.release_bypass w node.m_continuation_vertex 1
    match p.2 with
    | none => released_tasks p.1 rest
    | some t => t :: released_tasks p.1 rest

/-- Holds when a `release_bypass` on vertex `v` cannot allocate: either the
vertex is gone, or its task exists and already has a dynamic state, so the
`get_dynamic_state` call inside the zero branch of `release_bypass` does not
create one. -/
def rb_noalloc (w : World) (v : Nat) : Bool :=
  match w.vertices v with
  | none => true
  | some vx =>
    match w.tasks vx.m_task with
    | none => false
    | some tk => tk.m_dynamic_state.isSome

/-- Every node of the list satisfies `rb_noalloc` for its vertex. -/
def drain_ok (w : World) (l : List successor_list_node) : Bool :=
  l.all (fun node => rb_noalloc w node.m_continuation_vertex)

/-- Characterization of `k` successive `add_successor(v)` calls on state `s`
(adding `k` edges from the task of `s` to the task of `v`). -/
def add_k_successors (fuel : Nat) (w : World) (s v : Nat) : Nat → World
  | 0 => w
  | k + 1 => (task_dynamic_state.add_successor fuel (add_k_successors fuel w s v k) s v).1

/-- Number of successor nodes carrying vertex `v` in a successor head value. -/
def nodes_for (v : Nat) : successor_list_head_t → Nat
  | .alive l => (l.filter (fun n => n.m_continuation_vertex = v)).length
  | .completed => 0

/-! ## Concrete heaps for witnesses and counterexamples -/

/-- Heap for the transfer witness: states 0 and 1 with pending successor
lists, backed by live vertices. -/
def W_transfer : World := {
  tasks := fun _ => none,
  states := fun i =>
    if i = 0 then some ⟨0, .alive [⟨5⟩], none, none, 1⟩
    else if i = 1 then some ⟨1, .alive [⟨6⟩], none, none, 1⟩ else none,
  vertices := fun i => if i = 5 then some ⟨1, 2⟩ else if i = 6 then some ⟨2, 2⟩ else none,
  next_state_id := 2, next_vertex_id := 7 }

/-- Heap for the completion witness: task 0 has two pending successors, one
whose vertex count is about to hit zero and one that still waits. -/
def W_complete : World := {
  tasks := fun i => if i = 0 then some ⟨some 0⟩
                    else if i = 1 then some ⟨some 1⟩
                    else if i = 2 then some ⟨some 2⟩ else none,
  states := fun i =>
    if i = 0 then some ⟨0, .alive [⟨5⟩, ⟨6⟩], none, none, 1⟩
    else if i = 1 then some ⟨1, .alive [], some 5, none, 1⟩
    else if i = 2 then some ⟨2, .alive [], some 6, none, 1⟩ else none,
  vertices := fun i => if i = 5 then some ⟨1, 1⟩ else if i = 6 then some ⟨2, 2⟩ else none,
  next_state_id := 3, next_vertex_id := 7 }

/-- Heap for the C4 counterexample and witness: state 1 completed and
forwarding to state 2; state 2 completed with no forwarding; a live vertex 7. -/
def W_forward_chain : World := {
  tasks := fun _ => none,
  states := fun i => if i = 1 then some ⟨10, .completed, none, some 2, 1⟩
                     else if i = 2 then some ⟨11, .completed, none, none, 1⟩ else none,
  vertices := fun i => if i = 7 then some ⟨12, 3⟩ else none,
  next_state_id := 3, next_vertex_id := 8 }

/-- Heap for the amended-C4 witness: state 1 completed and forwarding to the
alive state 2. -/
def W_forward_alive : World := {
  tasks := fun _ => none,
  states := fun i => if i = 1 then some ⟨10, .completed, none, some 2, 1⟩
                     else if i = 2 then some ⟨11, .alive [⟨9⟩], none, none, 2⟩ else none,
  vertices := fun i => if i = 7 then some ⟨12, 3⟩ else if i = 9 then some ⟨13, 1⟩ else none,
  next_state_id := 3, next_vertex_id := 10 }

/-- Heap for the edge-addition witness: a live state 0 and a successor vertex
4 holding only its initial "not yet submitted" reservation. -/
def W_edges : World := {
  tasks := fun _ => none,
  states := fun i => if i = 0 then some ⟨0, .alive [], none, none, 1⟩ else none,
  vertices := fun i => if i = 4 then some ⟨3, 1⟩ else none,
  next_state_id := 1, next_vertex_id := 5 }

/-- Heap for the submission witness: task 0 with a dynamic state whose
continuation vertex holds only the "not yet submitted" reservation. -/
def W_submit : World := {
  tasks := fun i => if i = 0 then some ⟨some 0⟩ else none,
  states := fun i => if i = 0 then some ⟨0, .alive [], some 3, none, 1⟩ else none,
  vertices := fun i => if i = 3 then some ⟨0, 1⟩ else none,
  next_state_id := 1, next_vertex_id := 4 }

/-- Heap for the release-bypass witness. -/
def W_bypass : World := {
  tasks := fun i => if i = 0 then some ⟨some 0⟩ else none,
  states := fun i => if i = 0 then some ⟨0, .alive [], some 3, none, 1⟩ else none,
  vertices := fun i => if i = 3 then some ⟨0, 2⟩ else none,
  next_state_id := 1, next_vertex_id := 4 }

/-- Heap for the dynamic-state release witness: state 0 on its last reference,
forwarding to state 1 which has two references. -/
def W_release : World := {
  tasks := fun _ => none,
  states := fun i => if i = 0 then some ⟨0, .completed, none, some 1, 1⟩
                     else if i = 1 then some ⟨1, .alive [], none, none, 2⟩ else none,
  vertices := fun _ => none,
  next_state_id := 2, next_vertex_id := 0 }

/-- Empty heap. -/
def W_empty : World := {
  tasks := fun _ => none, states := fun _ => none, vertices := fun _ => none,
  next_state_id := 0, next_vertex_id := 0 }

/-- Heap for the completion-handle move counterexample and witness: one
dynamic state with two co-owners. -/
def W_move : World := {
  tasks := fun _ => none,
  states := fun i => if i = 0 then some ⟨0, .alive [], none, none, 2⟩ else none,
  vertices := fun _ => none,
  next_state_id := 1, next_vertex_id := 0 }

/-! ## Helper lemmas -/

/-- Effect of `add_successor` on a state whose successor head is alive: the
successor's vertex gains one reservation and one node for it is linked in
front of the list; nothing else changes and nothing is finalized. -/
theorem add_successor_alive_step (fuel : Nat) (w : World) (s v : Nat)
    (st : task_dynamic_state) (vx : continuation_vertex) (l : List successor_list_node)
    (hs : w.states s = some st) (hhead : st.m_successor_list_head = .alive l)
    (hv : w.vertices v = some vx) (hlt : vx.m_ref_count + 1 < UINT64_CARD) :
    (task_dynamic_state.add_successor (fuel + 1) w s v).2 = [] ∧
    (task_dynamic_state.add_successor (fuel + 1) w s v).1.vertices v
      = some { vx with m_ref_count := vx.m_ref_count + 1 } ∧
    (∀ i, i ≠ v → (task_dynamic_state.add_successor (fuel + 1) w s v).1.vertices i = w.vertices i) ∧
    (task_dynamic_state.add_successor (fuel + 1) w s v).1.states s
      = some { st with m_successor_list_head := .alive (⟨v⟩ :: l) } ∧
    (∀ i, i ≠ s → (task_dynamic_state.add_successor (fuel + 1) w s v).1.states i = w.states i) ∧
    (task_dynamic_state.add_successor (fuel + 1) w s v).1.tasks = w.tasks ∧
    (task_dynamic_state.add_successor (fuel + 1) w s v).1.next_state_id = w.next_state_id ∧
    (task_dynamic_state.add_successor (fuel + 1) w s v).1.next_vertex_id = w.next_vertex_id := by
  have hmod : (vx.m_ref_count + 1) % UINT64_CARD = vx.m_ref_count + 1 := Nat.mod_eq_of_lt hlt
  refine ⟨?_, ?_, ?_, ?_, ?_, ?_, ?_, ?_⟩
  · simp [task_dynamic_state.add_successor, hs, hhead, task_dynamic_state.add_successor_node,
      continuation_vertex.reserve, World.update_vertex, World.update_state]
  · simp [task_dynamic_state.add_successor, hs, hhead, task_dynamic_state.add_successor_node,
      continuation_vertex.reserve, World.update_vertex, World.update_state, hv, hmod]
  · intro i hi
    simp [task_dynamic_state.add_successor, hs, hhead, task_dynamic_state.add_successor_node,
      continuation_vertex.reserve, World.update_vertex, World.update_state, hi]
  · simp [task_dynamic_state.add_successor, hs, hhead, task_dynamic_state.add_successor_node,
      continuation_vertex.reserve, World.update_vertex, World.update_state]
  · intro i hi
    simp [task_dynamic_state.add_successor, hs, hhead, task_dynamic_state.add_successor_node,
      continuation_vertex.reserve, World.update_vertex, World.update_state, hi]
  · simp [task_dynamic_state.add_successor, hs, hhead, task_dynamic_state.add_successor_node,
      continuation_vertex.reserve, World.update_vertex, World.update_state]
  · simp [task_dynamic_state.add_successor, hs, hhead, task_dynamic_state.add_successor_node,
      continuation_vertex.reserve, World.update_vertex, World.update_state]
  · simp [task_dynamic_state.add_successor, hs, hhead, task_dynamic_state.add_successor_node,
      continuation_vertex.reserve, World.update_vertex, World.update_state]

/-- The drain loop returns as bypass the first task released by the
`release_bypass` calls (or the incoming accumulator), spawns exactly the
remaining released tasks in order, and finalizes exactly the drained nodes in
order. -/
theorem release_successor_list_aux_spec (l : List successor_list_node) :
    ∀ (w : World) (acc : Option Nat),
      (release_successor_list_aux w acc l).bypass_task
        = (match acc with | some a => some a | none => (released_tasks w l).head?) ∧
      (release_successor_list_aux w acc l).spawned
        = (match acc with | some _ => released_tasks w l | none => (released_tasks w l).tail) ∧
      (release_successor_list_aux w acc l).finalized = l := by
  induction l with
  | nil =>
    intro w acc
    cases acc <;> simp [release_successor_list_aux, released_tasks]
  | cons node rest ih =>
    intro w acc
    simp only [release_successor_list_aux, released_tasks]
    cases hrb : (continuation_vertex.release_bypass w node.m_continuation_vertex 1).2 with
    | none =>
      obtain ⟨h1, h2, h3⟩ :=
        ih (continuation_vertex.release_bypass w node.m_continuation_vertex 1).1 acc
      cases acc <;> simp_all
    | some t =>
      cases acc with
      | none =>
        obtain ⟨h1, h2, h3⟩ :=
          ih (continuation_vertex.release_bypass w node.m_continuation_vertex 1).1 (some t)
        simp_all
      | some a =>
        obtain ⟨h1, h2, h3⟩ :=
          ih (continuation_vertex.release_bypass w node.m_continuation_vertex 1).1 (some a)
        simp_all

/-- A `release_bypass` that cannot allocate keeps the task table intact,
preserves every dynamic state's successor head, and preserves `rb_noalloc`
for every vertex. -/
theorem release_bypass_preserves (w : World) (v d : Nat)
    (hok : rb_noalloc w v = true) :
    ((continuation_vertex.release_bypass w v d).1.tasks = w.tasks) ∧
    (∀ s st, w.states s = some st → ∃ st',
        (continuation_vertex.release_bypass w v d).1.states s = some st' ∧
        st'.m_successor_list_head = st.m_successor_list_head) ∧
    (∀ v', rb_noalloc w v' = true →
        rb_noalloc (continuation_vertex.release_bypass w v d).1 v' = true) := by
  cases hv : w.vertices v with
  | none =>
    simp only [continuation_vertex.release_bypass, hv]
    exact ⟨trivial, fun s st hs => ⟨st, hs, rfl⟩, fun v' h => h⟩
  | some vx =>
    simp only [rb_noalloc, hv] at hok
    cases htk : w.tasks vx.m_task with
    | none => simp [htk] at hok
    | some tk =>
      simp only [htk] at hok
      obtain ⟨s0, hs0⟩ := Option.isSome_iff_exists.mp hok
      simp only [continuation_vertex.release_bypass, hv]
      by_cases href :
          (vx.m_ref_count + (UINT64_CARD - d % UINT32_CARD % UINT64_CARD)) % UINT64_CARD = 0
      · simp only [href, if_pos rfl, task_handle_task.get_dynamic_state, htk, hs0,
          task_dynamic_state.unset_dependency, World.update_state, World.remove_vertex]
        refine ⟨by trivial, ?_, ?_⟩
        · intro s st hs
          by_cases hss : s = s0
          · subst hss
            exact ⟨{ st with m_continuation_vertex := none }, by simp [hs], rfl⟩
          · exact ⟨st, by simp [hss, hs], rfl⟩
        · intro v' hv'
          by_cases hvv : v' = v
          · subst hvv
            simp [rb_noalloc]
          · simp only [rb_noalloc] at hv' ⊢
            simpa [hvv] using hv'
      · simp only [if_neg href, World.update_vertex]
        refine ⟨by trivial, fun s st hs => ⟨st, by simpa using hs, rfl⟩, ?_⟩
        intro v' hv'
        by_cases hvv : v' = v
        · subst hvv
          simp only [rb_noalloc, hv] at hv' ⊢
          simpa using hv'
        · simp only [rb_noalloc] at hv' ⊢
          simpa [hvv] using hv'

/-- The drain loop preserves every existing dynamic state's successor head,
provided none of its `release_bypass` calls can allocate. -/
theorem release_successor_list_aux_heads (l : List successor_list_node) :
    ∀ (w : World) (acc : Option Nat), drain_ok w l = true →
      ∀ s st, w.states s = some st → ∃ st',
        (release_successor_list_aux w acc l).world.states s = some st' ∧
        st'.m_successor_list_head = st.m_successor_list_head := by
  induction l with
  | nil =>
    intro w acc _ s st hs
    exact ⟨st, by simpa [release_successor_list_aux] using hs, rfl⟩
  | cons node rest ih =>
    intro w acc hok s st hs
    have hok1 : rb_noalloc w node.m_continuation_vertex = true := by
      simp only [drain_ok, List.all_cons, Bool.and_eq_true] at hok
      exact hok.1
    have hokrest : ∀ n ∈ rest, rb_noalloc w n.m_continuation_vertex = true := by
      simp only [drain_ok, List.all_cons, Bool.and_eq_true, List.all_eq_true] at hok
      exact hok.2
    obtain ⟨htasks, hstates, hpres⟩ :=
      release_bypass_preserves w node.m_continuation_vertex 1 hok1
    have hok' :
        drain_ok (continuation_vertex.release_bypass w node.m_continuation_vertex 1).1 rest
          = true := by
      simp only [drain_ok, List.all_eq_true]
      intro n hn
      exact hpres n.m_continuation_vertex (hokrest n hn)
    obtain ⟨st1, hst1, hhead1⟩ := hstates s st hs
    simp only [release_successor_list_aux]
    cases hrb : (continuation_vertex.release_bypass w node.m_continuation_vertex 1).2 with
    | none =>
      obtain ⟨st2, hst2, hhead2⟩ :=
        ih (continuation_vertex.release_bypass w node.m_continuation_vertex 1).1 acc hok' s st1 hst1
      exact ⟨st2, hst2, hhead2.trans hhead1⟩
    | some t =>
      cases acc with
      | none =>
        obtain ⟨st2, hst2, hhead2⟩ :=
          ih (continuation_vertex.release_bypass w node.m_continuation_vertex 1).1 (some t) hok'
            s st1 hst1
        exact ⟨st2, hst2, hhead2.trans hhead1⟩
      | some a =>
        obtain ⟨st2, hst2, hhead2⟩ :=
          ih (continuation_vertex.release_bypass w node.m_continuation_vertex 1).1 (some a) hok'
            s st1 hst1
        exact ⟨st2, hst2, hhead2.trans hhead1⟩

/-- Closed-form run of `release_bypass` when the vertex exists, the delta
does not underflow and the task's dynamic state already exists: the count
drops by exactly `delta`; at zero the dependency flag is cleared, the vertex
freed and the task returned, otherwise null is returned and only the count
changes. -/
theorem release_bypass_run (w : World) (v : Nat) (vx : continuation_vertex) (d : Nat)
    (hv : w.vertices v = some vx) (hd : d ≤ vx.m_ref_count) (hd32 : d < UINT32_CARD)
    (hr : vx.m_ref_count < UINT64_CARD) (tk : task_handle_task) (s : Nat)
    (htask : w.tasks vx.m_task = some tk)
    (hds : tk.m_dynamic_state = some s) :
    (vx.m_ref_count - d = 0 →
       continuation_vertex.release_bypass w v d
         = ((task_dynamic_state.unset_dependency w s).remove_vertex v, some vx.m_task)) ∧
    (vx.m_ref_count - d ≠ 0 →
       continuation_vertex.release_bypass w v d
         = (w.update_vertex v (fun _ => { vx with m_ref_count := vx.m_ref_count - d }),
            none)) := by
  have h2 : d % UINT32_CARD % UINT64_CARD = d := by
    rw [Nat.mod_eq_of_lt hd32]
    exact Nat.mod_eq_of_lt (by omega)
  have key : (vx.m_ref_count + (UINT64_CARD - d)) % UINT64_CARD = vx.m_ref_count - d := by
    have h3 : vx.m_ref_count + (UINT64_CARD - d) = (vx.m_ref_count - d) + UINT64_CARD := by
      omega
    rw [h3, Nat.add_mod_right]
    exact Nat.mod_eq_of_lt (by omega)
  constructor
  · intro hzero
    simp only [continuation_vertex.release_bypass, hv, h2, key, hzero, if_pos,
      task_handle_task.get_dynamic_state, htask, hds]
  · intro hnz
    simp only [continuation_vertex.release_bypass, hv, h2, key, if_neg hnz]

/-! ## Claim theorems -/

/-- C1: for a dynamic state `s` with an alive successor list and a non-null
replacement state `s2`, `transfer_successors_to` — which the embedding runs
in source order: reserve `s2`, store the forwarding pointer, exchange the
head with the `COMPLETED` sentinel in one step, splice the claimed list into
`s2` — leaves `s` sealed (`head = COMPLETED`, `forward = s2`), leaves `s2`
reserved once more with the claimed nodes spliced in front of its own list,
and every node that was in `s`'s list is reachable from `s2`'s head. -/
theorem transfer_successors_to_spec (w : World) (s s2 : Nat)
    (st st2 : task_dynamic_state) (ls ls2 : List successor_list_node)
    (hs : w.states s = some st) (hs2 : w.states s2 = some st2) (hne : s ≠ s2)
    (hhead : st.m_successor_list_head = .alive ls)
    (hhead2 : st2.m_successor_list_head = .alive ls2)
    (hlt : st2.m_num_references + 1 < UINT64_CARD) :
    (task_dynamic_state.transfer_successors_to w s s2).states s
      = some { st with m_successor_list_head := .completed,
                       m_new_dynamic_state := some s2 } ∧
    (task_dynamic_state.transfer_successors_to w s s2).states s2
      = some { st2 with m_num_references := st2.m_num_references + 1,
                        m_successor_list_head := .alive (ls ++ ls2) } ∧
    (∀ n, n ∈ ls → n ∈ ls ++ ls2) := by
  have hmod : (st2.m_num_references + 1) % UINT64_CARD = st2.m_num_references + 1 :=
    Nat.mod_eq_of_lt hlt
  refine ⟨?_, ?_, fun n hn => List.mem_append_left _ hn⟩ <;>
  · cases ls <;>
      simp [task_dynamic_state.transfer_successors_to, task_dynamic_state.reserve,
        task_dynamic_state.fetch_successor_list, task_dynamic_state.add_successor_list,
        World.update_state, hs, hs2, hne, Ne.symm hne, hhead, hhead2, hmod]

/-- Witness for C1 at a concrete heap: state 0 holds the pending node for
vertex 5, state 1 holds the node for vertex 6; after the transfer state 0 is
sealed and forwarding, and state 1 holds both nodes. -/
theorem transfer_successors_to_witness :
    (task_dynamic_state.transfer_successors_to W_transfer 0 1).states 0
      = some ⟨0, .completed, none, some 1, 1⟩ ∧
    (task_dynamic_state.transfer_successors_to W_transfer 0 1).states 1
      = some ⟨1, .alive [⟨5⟩, ⟨6⟩], none, none, 2⟩ ∧
    (∀ n, n ∈ [(⟨5⟩ : successor_list_node)] → n ∈ [(⟨5⟩ : successor_list_node), ⟨6⟩]) :=
  transfer_successors_to_spec W_transfer 0 1 ⟨0, .alive [⟨5⟩], none, none, 1⟩
    ⟨1, .alive [⟨6⟩], none, none, 1⟩ [⟨5⟩] [⟨6⟩] (by decide) (by decide) (by decide)
    rfl rfl (by decide)

/-- C2: completing task `t` exchanges its state's successor head with the
`COMPLETED` sentinel and then drains the claimed nodes in list order through
`release_bypass`: the first released task is returned as the bypass result,
every later released task is spawned, and every node is finalized; a task
with no dynamic state returns a null bypass, spawns nothing and finalizes
nothing (and an empty list is the `l = []` instance, for which
`released_tasks` is empty).  The `drain_ok` hypothesis says each drained
vertex's task already has its dynamic state, so the bookkeeping
`get_dynamic_state` call inside `release_bypass` allocates nothing. -/
theorem complete_task_spec (w : World) (t : Nat) (tk : task_handle_task) (s : Nat)
    (st : task_dynamic_state) (l : List successor_list_node)
    (htask : w.tasks t = some tk) (hds : tk.m_dynamic_state = some s)
    (hst : w.states s = some st) (hhead : st.m_successor_list_head = .alive l)
    (hok : drain_ok w l = true) :
    (task_handle_task.complete_task w t).bypass_task
      = (released_tasks (task_dynamic_state.fetch_successor_list w s .completed).1 l).head? ∧
    (task_handle_task.complete_task w t).spawned
      = (released_tasks (task_dynamic_state.fetch_successor_list w s .completed).1 l).tail ∧
    (task_handle_task.complete_task w t).finalized = l ∧
    (∃ st', (task_handle_task.complete_task w t).world.states s = some st' ∧
        st'.m_successor_list_head = .completed) ∧
    (∀ t' tk', w.tasks t' = some tk' → tk'.m_dynamic_state = none →
        task_handle_task.complete_task w t' = ⟨w, none, [], []⟩) := by
  have hp2 : (task_dynamic_state.fetch_successor_list w s .completed).2 = .alive l := by
    simp [task_dynamic_state.fetch_successor_list, hst, hhead]
  have hrun : task_handle_task.complete_task w t
      = release_successor_list_aux
          (task_dynamic_state.fetch_successor_list w s .completed).1 none l := by
    simp only [task_handle_task.complete_task, htask, hds, task_dynamic_state.complete_task,
      hp2, release_successor_list]
  have hs1 : (task_dynamic_state.fetch_successor_list w s .completed).1.states s
      = some { st with m_successor_list_head := .completed } := by
    simp [task_dynamic_state.fetch_successor_list, hst]
  have hok1 : drain_ok (task_dynamic_state.fetch_successor_list w s .completed).1 l = true := by
    simp only [drain_ok, List.all_eq_true] at hok ⊢
    intro n hn
    have h := hok n hn
    simp only [rb_noalloc, task_dynamic_state.fetch_successor_list, hst] at h ⊢
    exact h
  obtain ⟨h1, h2, h3⟩ :=
    release_successor_list_aux_spec l (task_dynamic_state.fetch_successor_list w s .completed).1
      none
  obtain ⟨st', hst', hhead'⟩ :=
    release_successor_list_aux_heads l
      (task_dynamic_state.fetch_successor_list w s .completed).1 none hok1 s
      { st with m_successor_list_head := .completed } hs1
  refine ⟨by rw [hrun]; exact h1, by rw [hrun]; exact h2, by rw [hrun]; exact h3,
    ⟨st', by rw [hrun]; exact hst', hhead'.trans rfl⟩, ?_⟩
  intro t' tk' htask' hds'
  simp [task_handle_task.complete_task, htask', hds']

/-- Witness for C2 at a concrete heap: task 0 has successors behind vertices
5 (count 1, released by the drain and returned as bypass) and 6 (count 2,
still pending); nothing is spawned and both nodes are finalized. -/
theorem complete_task_witness :
    (task_handle_task.complete_task W_complete 0).bypass_task
      = (released_tasks
          (task_dynamic_state.fetch_successor_list W_complete 0 .completed).1
          [⟨5⟩, ⟨6⟩]).head? ∧
    (task_handle_task.complete_task W_complete 0).spawned
      = (released_tasks
          (task_dynamic_state.fetch_successor_list W_complete 0 .completed).1
          [⟨5⟩, ⟨6⟩]).tail ∧
    (task_handle_task.complete_task W_complete 0).finalized = [⟨5⟩, ⟨6⟩] ∧
    (∃ st', (task_handle_task.complete_task W_complete 0).world.states 0 = some st' ∧
        st'.m_successor_list_head = .completed) ∧
    (∀ t' tk', W_complete.tasks t' = some tk' → tk'.m_dynamic_state = none →
        task_handle_task.complete_task W_complete t' = ⟨W_complete, none, [], []⟩) :=
  complete_task_spec W_complete 0 ⟨some 0⟩ 0 ⟨0, .alive [⟨5⟩, ⟨6⟩], none, none, 1⟩
    [⟨5⟩, ⟨6⟩] (by decide) (by decide) (by decide) rfl (by decide)

/-- C3: along any serialisation of the atomic operations the source performs
on one continuation vertex's reference count — reserves from edge additions,
`release_bypass` calls from predecessor completions, transfers routing into
this vertex's list, and the submission path, plain releases from
late-completion cleanup — at most one operation can be the `release_bypass`
that hits zero, because both release operations delete the vertex at the zero
transition so no operation runs on a dead vertex (the hypothesis).  Since
every `spawn` and every return-for-bypass of a graph task is guarded by
`release_bypass` returning that task, the task is spawned or bypassed at most
once. -/
theorem single_release_per_vertex (init : Nat) (events : List vertex_event)
    (hlive : ∀ i, i < events.length → count_after init (events.take i) ≠ 0)
    (i j : Nat) (hi : returns_task_at init events i = true)
    (hj : returns_task_at init events j = true) : i = j := by
  have key : ∀ k, returns_task_at init events k = true →
      k < events.length ∧ count_after init (events.take (k + 1)) = 0 := by
    intro k hk
    unfold returns_task_at at hk
    cases hget : events[k]? with
    | none => simp [hget] at hk
    | some e =>
      have hlen : k < events.length := by
        by_contra hge
        rw [List.getElem?_eq_none (Nat.le_of_not_lt hge)] at hget
        cases hget
      cases e with
      | release_bypass d =>
        simp only [hget, decide_eq_true_eq] at hk
        exact ⟨hlen, hk⟩
      | reserve => simp [hget] at hk
      | release => simp [hget] at hk
  obtain ⟨hilen, hizero⟩ := key i hi
  obtain ⟨hjlen, hjzero⟩ := key j hj
  rcases Nat.lt_trichotomy i j with h | h | h
  · exact absurd hizero (hlive (i + 1) (by omega))
  · exact h
  · exact absurd hjzero (hlive (j + 1) (by omega))

/-- Witness for C3: a live trace in which one reserve and two
`release_bypass` calls occur; only the event at index 2 releases the task,
and the theorem instantiated at `i = j = 2` applies. -/
theorem single_release_per_vertex_witness :
    returns_task_at 1
      [vertex_event.reserve, vertex_event.release_bypass 1, vertex_event.release_bypass 1] 2
      = true ∧ (2 : Nat) = 2 :=
  ⟨by decide,
   single_release_per_vertex 1
     [vertex_event.reserve, vertex_event.release_bypass 1, vertex_event.release_bypass 1]
     (by decide) 2 2 (by decide) (by decide)⟩

/-- Counterexample to C4 as stated.  In `W_forward_chain`, state 1 is
completed and has a forwarding state (state 2), so the claim requires that a
later `add_successor` insert exactly one node for the vertex under the
forwarding target.  But state 2 is itself completed with no forwarding, so
`add_successor` returns with no node inserted anywhere and the vertex
untouched: with a forwarding state set, neither of the claim's two effects
occurs. -/
theorem add_successor_after_completion_counterexample :
    W_forward_chain.states 1 = some ⟨10, .completed, none, some 2, 1⟩ ∧
    (task_dynamic_state.add_successor 5 W_forward_chain 1 7).1.states 2
      = some ⟨11, .completed, none, none, 1⟩ ∧
    nodes_for 7 successor_list_head_t.completed = 0 ∧
    (task_dynamic_state.add_successor 5 W_forward_chain 1 7).1.states 1
      = W_forward_chain.states 1 ∧
    (task_dynamic_state.add_successor 5 W_forward_chain 1 7).1.vertices 7
      = some ⟨12, 3⟩ ∧
    (task_dynamic_state.add_successor 5 W_forward_chain 1 7).2 = [] := by
  decide

/-- C4 amended: for a dynamic state `s` whose successor head is `COMPLETED`,
a later `add_successor(v)` has exactly one of two effects — if `s` has no
forwarding state, the heap is returned unchanged (no reserve, no node); if
`s` forwards to a state whose successor list is still alive, the vertex is
reserved once and exactly one node for it is inserted under the forwarding
target.  (The amendment restricts the claim's forwarding case to an alive
forwarding target; as the counterexample shows, a completed non-forwarding
target elides the edge instead.) -/
theorem add_successor_after_completion_amended (fuel : Nat) (w : World) (s v : Nat)
    (st : task_dynamic_state) (hs : w.states s = some st)
    (hhead : st.m_successor_list_head = .completed) :
    (st.m_new_dynamic_state = none →
       task_dynamic_state.add_successor (fuel + 1) w s v = (w, [])) ∧
    (∀ s2 st2 l2 vx, st.m_new_dynamic_state = some s2 → w.states s2 = some st2 →
       st2.m_successor_list_head = .alive l2 → w.vertices v = some vx →
       vx.m_ref_count + 1 < UINT64_CARD →
       (task_dynamic_state.add_successor (fuel + 2) w s v).2 = [] ∧
       (task_dynamic_state.add_successor (fuel + 2) w s v).1.vertices v
         = some { vx with m_ref_count := vx.m_ref_count + 1 } ∧
       (task_dynamic_state.add_successor (fuel + 2) w s v).1.states s2
         = some { st2 with m_successor_list_head := .alive (⟨v⟩ :: l2) } ∧
       (∀ i, i ≠ s2 →
         (task_dynamic_state.add_successor (fuel + 2) w s v).1.states i = w.states i)) := by
  constructor
  · intro hfwd
    simp [task_dynamic_state.add_successor, hs, hhead, hfwd]
  · intro s2 st2 l2 vx hfwd hs2 hh2 hv hlt
    have hred : task_dynamic_state.add_successor (fuel + 2) w s v
        = task_dynamic_state.add_successor (fuel + 1) w s2 v := by
      simp only [task_dynamic_state.add_successor, hs, hhead, hfwd]
    obtain ⟨h1, h2, h3, h4, h5, h6, h7, h8⟩ :=
      add_successor_alive_step fuel w s2 v st2 vx l2 hs2 hh2 hv hlt
    exact ⟨by rw [hred]; exact h1, by rw [hred]; exact h2, by rw [hred]; exact h4,
      fun i hi => by rw [hred]; exact h5 i hi⟩

/-- Witness for the amended C4 at a concrete heap: state 1 is completed and
forwards to the alive state 2; adding a successor for vertex 7 reserves it
(count 3 to 4) and links exactly one node for it under state 2. -/
theorem add_successor_after_completion_amended_witness :
    ((⟨10, .completed, none, some 2, 1⟩ : task_dynamic_state).m_new_dynamic_state = none →
       task_dynamic_state.add_successor (0 + 1) W_forward_alive 1 7 = (W_forward_alive, [])) ∧
    (∀ s2 st2 l2 vx,
       (⟨10, .completed, none, some 2, 1⟩ : task_dynamic_state).m_new_dynamic_state = some s2 →
       W_forward_alive.states s2 = some st2 →
       st2.m_successor_list_head = .alive l2 → W_forward_alive.vertices 7 = some vx →
       vx.m_ref_count + 1 < UINT64_CARD →
       (task_dynamic_state.add_successor (0 + 2) W_forward_alive 1 7).2 = [] ∧
       (task_dynamic_state.add_successor (0 + 2) W_forward_alive 1 7).1.vertices 7
         = some { vx with m_ref_count := vx.m_ref_count + 1 } ∧
       (task_dynamic_state.add_successor (0 + 2) W_forward_alive 1 7).1.states s2
         = some { st2 with m_successor_list_head := .alive (⟨7⟩ :: l2) } ∧
       (∀ i, i ≠ s2 →
         (task_dynamic_state.add_successor (0 + 2) W_forward_alive 1 7).1.states i
           = W_forward_alive.states i)) :=
  add_successor_after_completion_amended 0 W_forward_alive 1 7
    ⟨10, .completed, none, some 2, 1⟩ (by decide) rfl

/-- C5: adding `k` edges to successor vertex `v` while state `s`'s successor
head stays alive performs exactly one reserve per linkage — the vertex's
reference count (initially 1 from the constructor's "not yet submitted"
reservation, here arbitrary) grows by exactly `k` — and links exactly `k`
nodes for `v` in front of the list. -/
theorem add_k_edges_reserve_count (fuel : Nat) (w : World) (s v : Nat)
    (st : task_dynamic_state) (vx : continuation_vertex) (l : List successor_list_node)
    (hs : w.states s = some st) (hhead : st.m_successor_list_head = .alive l)
    (hv : w.vertices v = some vx) :
    ∀ k, vx.m_ref_count + k < UINT64_CARD →
      (add_k_successors (fuel + 1) w s v k).vertices v
        = some { vx with m_ref_count := vx.m_ref_count + k } ∧
      (add_k_successors (fuel + 1) w s v k).states s
        = some { st with m_successor_list_head := .alive (List.replicate k ⟨v⟩ ++ l) } := by
  intro k
  induction k with
  | zero =>
    intro _
    refine ⟨by simpa using hv, ?_⟩
    show w.states s = _
    rw [hs]
    simp [← hhead]
  | succ k ih =>
    intro hlt
    obtain ⟨ihv, ihs⟩ := ih (by omega)
    obtain ⟨h1, h2, h3, h4, h5, h6, h7, h8⟩ :=
      add_successor_alive_step fuel (add_k_successors (fuel + 1) w s v k) s v
        { st with m_successor_list_head := .alive (List.replicate k ⟨v⟩ ++ l) }
        { vx with m_ref_count := vx.m_ref_count + k }
        (List.replicate k ⟨v⟩ ++ l) ihs rfl ihv (by simpa using hlt)
    exact ⟨h2, h4⟩

/-- Witness for C5 at a concrete heap: three edges to vertex 4 (initial count
1) leave it at count 4 and put three nodes in the list. -/
theorem add_k_edges_reserve_count_witness :
    (add_k_successors (0 + 1) W_edges 0 4 3).vertices 4
      = some { m_task := 3, m_ref_count := 1 + 3 } ∧
    (add_k_successors (0 + 1) W_edges 0 4 3).states 0
      = some { m_task := 0,
               m_successor_list_head := .alive (List.replicate 3 ⟨4⟩ ++ []),
               m_continuation_vertex := none, m_new_dynamic_state := none,
               m_num_references := 1 } :=
  add_k_edges_reserve_count 0 W_edges 0 4 ⟨0, .alive [], none, none, 1⟩ ⟨3, 1⟩ []
    (by decide) rfl (by decide) 3 (by decide)

/-- C6: releasing a task handle for submission (`task_handle_accessor::release`)
first runs `release_continuation` — which acts exactly when the task has a
dynamic state with pending dependencies — and then hands back the raw task
pointer, emptying the handle.  `release_continuation` performs
`release_bypass` on the continuation vertex, consuming the "not yet
submitted" reservation: when the count hits zero (all predecessors already
completed before submission) the task is spawned; otherwise nothing is
spawned and only the count drops. -/
theorem task_handle_release_spec (w : World) (th : task_handle) (t : Nat)
    (tk : task_handle_task) (hth : th.m_handle = some t) (htask : w.tasks t = some tk) :
    (task_handle_accessor.release w th).task_ptr = some t ∧
    (task_handle_accessor.release w th).handle = ⟨none⟩ ∧
    (tk.m_dynamic_state = none →
       (task_handle_accessor.release w th).world = w ∧
       (task_handle_accessor.release w th).spawned = []) ∧
    (∀ s st, tk.m_dynamic_state = some s → w.states s = some st →
       st.m_continuation_vertex = none →
       (task_handle_accessor.release w th).world = w ∧
       (task_handle_accessor.release w th).spawned = []) ∧
    (∀ s st v vx, tk.m_dynamic_state = some s → w.states s = some st →
       st.m_continuation_vertex = some v → w.vertices v = some vx →
       vx.m_task = t → vx.m_ref_count < UINT64_CARD →
       (vx.m_ref_count = 1 →
          (task_handle_accessor.release w th).spawned = [t] ∧
          (task_handle_accessor.release w th).world.vertices v = none ∧
          (task_handle_accessor.release w th).world.states s
            = some { st with m_continuation_vertex := none }) ∧
       (2 ≤ vx.m_ref_count →
          (task_handle_accessor.release w th).spawned = [] ∧
          (task_handle_accessor.release w th).world.vertices v
            = some { vx with m_ref_count := vx.m_ref_count - 1 } ∧
          (task_handle_accessor.release w th).world.states s = some st)) := by
  have hrel : task_handle_accessor.release w th
      = ⟨(task_handle_task.release_continuation w t).1,
         (task_handle_task.release_continuation w t).2, some t, ⟨none⟩⟩ := by
    simp [task_handle_accessor.release, hth]
  refine ⟨by rw [hrel], by rw [hrel], ?_, ?_, ?_⟩
  · intro hds
    rw [hrel]
    simp [task_handle_task.release_continuation, htask, hds]
  · intro s st hds hst hvnone
    rw [hrel]
    simp [task_handle_task.release_continuation, htask, hds,
      task_dynamic_state.has_dependencies, hst, hvnone]
  · intro s st v vx hds hst hvsome hv hvt hr
    have hdep : task_dynamic_state.has_dependencies w s = true := by
      simp [task_dynamic_state.has_dependencies, hst, hvsome]
    have hchain : task_handle_task.release_continuation w t
        = task_dynamic_state.release_continuation w s := by
      simp [task_handle_task.release_continuation, htask, hds, hdep]
    have htask' : w.tasks vx.m_task = some tk := by rw [hvt]; exact htask
    constructor
    · intro hone
      obtain ⟨hz, _⟩ := release_bypass_run w v vx 1 hv (by omega)
        (by norm_num [UINT32_CARD]) hr tk s htask' hds
      have hrb := hz (by omega)
      have hrc : task_dynamic_state.release_continuation w s
          = ((task_dynamic_state.unset_dependency w s).remove_vertex v, [vx.m_task]) := by
        simp [task_dynamic_state.release_continuation, hst, hvsome, hrb]
      rw [hrel, hchain, hrc]
      refine ⟨by rw [hvt], ?_, ?_⟩
      · simp [World.remove_vertex, task_dynamic_state.unset_dependency, World.update_state]
      · simp [World.remove_vertex, task_dynamic_state.unset_dependency, World.update_state, hst]
    · intro htwo
      obtain ⟨_, hnz⟩ := release_bypass_run w v vx 1 hv (by omega)
        (by norm_num [UINT32_CARD]) hr tk s htask' hds
      have hrb := hnz (by omega)
      have hrc : task_dynamic_state.release_continuation w s
          = (w.update_vertex v (fun _ => { vx with m_ref_count := vx.m_ref_count - 1 }), []) := by
        simp [task_dynamic_state.release_continuation, hst, hvsome, hrb]
      rw [hrel, hchain, hrc]
      refine ⟨rfl, ?_, ?_⟩
      · simp [World.update_vertex, hv]
      · show w.states s = some st
        exact hst

/-- Witness for C6 at a concrete heap: handle over task 0 whose state's
vertex holds exactly the "not yet submitted" reservation, so submission
spawns the task. -/
theorem task_handle_release_witness :
    (task_handle_accessor.release W_submit ⟨some 0⟩).task_ptr = some 0 ∧
    (task_handle_accessor.release W_submit ⟨some 0⟩).handle = ⟨none⟩ ∧
    ((⟨some 0⟩ : task_handle_task).m_dynamic_state = none →
       (task_handle_accessor.release W_submit ⟨some 0⟩).world = W_submit ∧
       (task_handle_accessor.release W_submit ⟨some 0⟩).spawned = []) ∧
    (∀ s st, (⟨some 0⟩ : task_handle_task).m_dynamic_state = some s →
       W_submit.states s = some st → st.m_continuation_vertex = none →
       (task_handle_accessor.release W_submit ⟨some 0⟩).world = W_submit ∧
       (task_handle_accessor.release W_submit ⟨some 0⟩).spawned = []) ∧
    (∀ s st v vx, (⟨some 0⟩ : task_handle_task).m_dynamic_state = some s →
       W_submit.states s = some st → st.m_continuation_vertex = some v →
       W_submit.vertices v = some vx → vx.m_task = 0 → vx.m_ref_count < UINT64_CARD →
       (vx.m_ref_count = 1 →
          (task_handle_accessor.release W_submit ⟨some 0⟩).spawned = [0] ∧
          (task_handle_accessor.release W_submit ⟨some 0⟩).world.vertices v = none ∧
          (task_handle_accessor.release W_submit ⟨some 0⟩).world.states s
            = some { st with m_continuation_vertex := none }) ∧
       (2 ≤ vx.m_ref_count →
          (task_handle_accessor.release W_submit ⟨some 0⟩).spawned = [] ∧
          (task_handle_accessor.release W_submit ⟨some 0⟩).world.vertices v
            = some { vx with m_ref_count := vx.m_ref_count - 1 } ∧
          (task_handle_accessor.release W_submit ⟨some 0⟩).world.states s = some st)) :=
  task_handle_release_spec W_submit ⟨some 0⟩ 0 ⟨some 0⟩ rfl (by decide)

/-- C7: `release_bypass(delta)` with `delta` at most the current reference
count subtracts exactly `delta`; on the transition to zero it clears the
pending-dependency flag on the task's dynamic state, deletes the vertex and
returns the task; otherwise it returns null, only the count changes, and no
dynamic state is touched (the function also emits no spawn, so the task is
not scheduled by it). -/
theorem release_bypass_spec (w : World) (v : Nat) (vx : continuation_vertex) (d : Nat)
    (tk : task_handle_task) (s : Nat) (st : task_dynamic_state)
    (hv : w.vertices v = some vx) (hd : d ≤ vx.m_ref_count) (hd32 : d < UINT32_CARD)
    (hr : vx.m_ref_count < UINT64_CARD)
    (htask : w.tasks vx.m_task = some tk) (hds : tk.m_dynamic_state = some s)
    (hst : w.states s = some st) :
    (vx.m_ref_count - d = 0 →
       (continuation_vertex.release_bypass w v d).2 = some vx.m_task ∧
       (continuation_vertex.release_bypass w v d).1.vertices v = none ∧
       (continuation_vertex.release_bypass w v d).1.states s
         = some { st with m_continuation_vertex := none }) ∧
    (vx.m_ref_count - d ≠ 0 →
       (continuation_vertex.release_bypass w v d).2 = none ∧
       (continuation_vertex.release_bypass w v d).1.vertices v
         = some { vx with m_ref_count := vx.m_ref_count - d } ∧
       (continuation_vertex.release_bypass w v d).1.states = w.states) := by
  obtain ⟨hz, hnz⟩ := release_bypass_run w v vx d hv hd hd32 hr tk s htask hds
  constructor
  · intro hzero
    rw [hz hzero]
    refine ⟨rfl, ?_, ?_⟩
    · simp [World.remove_vertex, task_dynamic_state.unset_dependency, World.update_state]
    · simp [World.remove_vertex, task_dynamic_state.unset_dependency, World.update_state, hst]
  · intro hnzero
    rw [hnz hnzero]
    refine ⟨rfl, ?_, rfl⟩
    simp [World.update_vertex, hv]

/-- Witness for C7 at a concrete heap: vertex 3 with count 2, delta 1 — the
count drops to 1, null is returned and the vertex survives. -/
theorem release_bypass_witness :
    ((⟨0, 2⟩ : continuation_vertex).m_ref_count - 1 = 0 →
       (continuation_vertex.release_bypass W_bypass 3 1).2 = some 0 ∧
       (continuation_vertex.release_bypass W_bypass 3 1).1.vertices 3 = none ∧
       (continuation_vertex.release_bypass W_bypass 3 1).1.states 0
         = some { (⟨0, .alive [], some 3, none, 1⟩ : task_dynamic_state) with
                    m_continuation_vertex := none }) ∧
    ((⟨0, 2⟩ : continuation_vertex).m_ref_count - 1 ≠ 0 →
       (continuation_vertex.release_bypass W_bypass 3 1).2 = none ∧
       (continuation_vertex.release_bypass W_bypass 3 1).1.vertices 3
         = some { (⟨0, 2⟩ : continuation_vertex) with
                    m_ref_count := (⟨0, 2⟩ : continuation_vertex).m_ref_count - 1 } ∧
       (continuation_vertex.release_bypass W_bypass 3 1).1.states = W_bypass.states) :=
  release_bypass_spec W_bypass 3 ⟨0, 2⟩ 1 ⟨some 0⟩ 0 ⟨0, .alive [], some 3, none, 1⟩
    (by decide) (by decide) (by decide) (by decide) (by decide) (by decide) (by decide)

/-- C8: when a dynamic state's reference count is decremented to zero, the
state releases its forwarding target exactly once — the back-edge
reservation taken at transfer time, observed as exactly one decrement on the
target and no other state touched — before freeing itself; with no
forwarding pointer it frees itself and every other state (and vertex) is
untouched. -/
theorem dynamic_state_release_spec (fuel : Nat) (w : World) (s : Nat)
    (st : task_dynamic_state) (hs : w.states s = some st)
    (hone : st.m_num_references = 1) :
    (st.m_new_dynamic_state = none →
       (task_dynamic_state.release (fuel + 2) w s).states s = none ∧
       (∀ i, i ≠ s → (task_dynamic_state.release (fuel + 2) w s).states i = w.states i) ∧
       (task_dynamic_state.release (fuel + 2) w s).vertices = w.vertices) ∧
    (∀ s2 st2, st.m_new_dynamic_state = some s2 → s2 ≠ s → w.states s2 = some st2 →
       2 ≤ st2.m_num_references → st2.m_num_references < UINT64_CARD →
       (task_dynamic_state.release (fuel + 2) w s).states s = none ∧
       (task_dynamic_state.release (fuel + 2) w s).states s2
         = some { st2 with m_num_references := st2.m_num_references - 1 } ∧
       (∀ i, i ≠ s → i ≠ s2 →
          (task_dynamic_state.release (fuel + 2) w s).states i = w.states i)) := by
  have hcard : 1 ≤ UINT64_CARD := by norm_num [UINT64_CARD]
  have hr0 : (st.m_num_references + (UINT64_CARD - 1)) % UINT64_CARD = 0 := by
    rw [hone]
    have h1 : 1 + (UINT64_CARD - 1) = UINT64_CARD := by omega
    rw [h1, Nat.mod_self]
  constructor
  · intro hfwd
    refine ⟨?_, ?_, ?_⟩
    · simp [task_dynamic_state.release, hs, hr0, hfwd, World.remove_state]
    · intro i hi
      simp [task_dynamic_state.release, hs, hr0, hfwd, World.remove_state, hi]
    · simp [task_dynamic_state.release, hs, hr0, hfwd, World.remove_state]
  · intro s2 st2 hfwd hne hs2 h2c hclt
    have hkey : (st2.m_num_references + (UINT64_CARD - 1)) % UINT64_CARD
        = st2.m_num_references - 1 := by
      have h3 : st2.m_num_references + (UINT64_CARD - 1)
          = (st2.m_num_references - 1) + UINT64_CARD := by omega
      rw [h3, Nat.add_mod_right]
      exact Nat.mod_eq_of_lt (by omega)
    have hne0 : ¬ (st2.m_num_references - 1 = 0) := by omega
    refine ⟨?_, ?_, ?_⟩
    · simp [task_dynamic_state.release, hs, hr0, hfwd, hs2, hkey, hne0,
        World.remove_state, World.update_state]
    · simp [task_dynamic_state.release, hs, hr0, hfwd, hs2, hkey, hne0,
        World.remove_state, World.update_state, hne]
    · intro i hi1 hi2
      simp [task_dynamic_state.release, hs, hr0, hfwd, hs2, hkey, hne0,
        World.remove_state, World.update_state, hi1, hi2]

/-- Witness for C8 at a concrete heap: state 0 on its last reference forwards
to state 1 (count 2); the release frees state 0 and decrements state 1 to 1. -/
theorem dynamic_state_release_witness :
    (((⟨0, .completed, none, some 1, 1⟩ : task_dynamic_state).m_new_dynamic_state = none →
       (task_dynamic_state.release (0 + 2) W_release 0).states 0 = none ∧
       (∀ i, i ≠ 0 →
          (task_dynamic_state.release (0 + 2) W_release 0).states i = W_release.states i) ∧
       (task_dynamic_state.release (0 + 2) W_release 0).vertices = W_release.vertices)) ∧
    (∀ s2 st2,
       (⟨0, .completed, none, some 1, 1⟩ : task_dynamic_state).m_new_dynamic_state = some s2 →
       s2 ≠ 0 → W_release.states s2 = some st2 →
       2 ≤ st2.m_num_references → st2.m_num_references < UINT64_CARD →
       (task_dynamic_state.release (0 + 2) W_release 0).states 0 = none ∧
       (task_dynamic_state.release (0 + 2) W_release 0).states s2
         = some { st2 with m_num_references := st2.m_num_references - 1 } ∧
       (∀ i, i ≠ 0 → i ≠ s2 →
          (task_dynamic_state.release (0 + 2) W_release 0).states i = W_release.states i)) :=
  dynamic_state_release_spec 0 W_release 0 ⟨0, .completed, none, some 1, 1⟩ (by decide) rfl

/-- C9 (code bug): the claim expects the debug assertion to detect
construction of a `task_completion_handle` from an empty `task_handle`
before any dereference of the null task occurs, but C++ runs the member
initializer `m_task_state(th.m_handle->get_dynamic_state())` before the
constructor body, so the empty-handle run dereferences the null `unique_ptr`
first and the body's `__TBB_ASSERT(th, ...)` can never fire: the
construction outcome on an empty handle is the null dereference, and no run
of the constructor ever produces an assertion failure. -/
theorem completion_handle_empty_construction_bug :
    (task_completion_handle.from_task_handle W_empty ⟨none⟩).2
      = completion_handle_construction_outcome.null_handle_dereference ∧
    (∀ (w : World) (th : task_handle),
       (task_completion_handle.from_task_handle w th).2
         ≠ completion_handle_construction_outcome.assertion_failure) := by
  refine ⟨rfl, ?_⟩
  intro w th
  cases hth : th.m_handle <;>
    simp [task_completion_handle.from_task_handle, hth]

/-- Counterexample to C10 as stated.  Self-move-assignment
(`h = std::move(h)`, the `this == &other` branch) leaves the moved-from
handle non-empty; and move-assignment between two distinct handles that
track the same dynamic state releases the destination's co-ownership of that
very state, so the state's reference count does change (2 becomes 1) even
though the source handle is only being moved. -/
theorem completion_handle_move_counterexample :
    (task_completion_handle.move_assign 4 W_move ⟨some 0⟩ ⟨some 0⟩ true).2.2
      ≠ (⟨none⟩ : task_completion_handle) ∧
    (task_completion_handle.move_assign 4 W_move ⟨some 0⟩ ⟨some 0⟩ false).1.states 0
      ≠ W_move.states 0 := by
  decide

/-- C10 amended: move-construction always leaves the moved-from handle empty
(false as bool, equal to nullptr) and performs no reserve or release — the
heap is returned untouched.  Move-assignment between distinct handle objects
leaves the moved-from handle empty and performs no reserve; the only release
is the destination's release of its previously tracked state, so whenever
the destination did not previously track the source's state (it was empty,
or tracked a different state), the source's state and its reference count
are unchanged. -/
theorem completion_handle_move_amended (fuel : Nat) (w : World)
    (dst src : task_completion_handle) (s : Nat) (st : task_dynamic_state)
    (hsrc : src.m_task_state = some s) (hs : w.states s = some st) :
    (task_completion_handle.move_construct w src).1 = w ∧
    (task_completion_handle.move_construct w src).2.1 = ⟨some s⟩ ∧
    (task_completion_handle.move_construct w src).2.2 = ⟨none⟩ ∧
    task_completion_handle.to_bool (task_completion_handle.move_construct w src).2.2
      = false ∧
    task_completion_handle.eq_nullptr (task_completion_handle.move_construct w src).2.2
      = true ∧
    (dst.m_task_state = none →
       (task_completion_handle.move_assign (fuel + 1) w dst src false).1 = w ∧
       (task_completion_handle.move_assign (fuel + 1) w dst src false).2.1 = ⟨some s⟩ ∧
       (task_completion_handle.move_assign (fuel + 1) w dst src false).2.2 = ⟨none⟩) ∧
    (∀ s2 st2, dst.m_task_state = some s2 → s2 ≠ s → w.states s2 = some st2 →
       2 ≤ st2.m_num_references → st2.m_num_references < UINT64_CARD →
       (task_completion_handle.move_assign (fuel + 1) w dst src false).1.states s
         = some st ∧
       (task_completion_handle.move_assign (fuel + 1) w dst src false).2.1 = ⟨some s⟩ ∧
       (task_completion_handle.move_assign (fuel + 1) w dst src false).2.2 = ⟨none⟩) := by
  refine ⟨rfl, by simp [task_completion_handle.move_construct, hsrc], rfl,
    by simp [task_completion_handle.to_bool, task_completion_handle.move_construct],
    by simp [task_completion_handle.eq_nullptr, task_completion_handle.move_construct],
    ?_, ?_⟩
  · intro hdst
    refine ⟨?_, ?_, rfl⟩
    · simp [task_completion_handle.move_assign, hdst]
    · simp [task_completion_handle.move_assign, hsrc]
  · intro s2 st2 hdst hne hs2 h2c hclt
    have hkey : (st2.m_num_references + (UINT64_CARD - 1)) % UINT64_CARD
        = st2.m_num_references - 1 := by
      have h3 : st2.m_num_references + (UINT64_CARD - 1)
          = (st2.m_num_references - 1) + UINT64_CARD := by omega
      rw [h3, Nat.add_mod_right]
      exact Nat.mod_eq_of_lt (by omega)
    have hne0 : ¬ (st2.m_num_references - 1 = 0) := by omega
    refine ⟨?_, ?_, rfl⟩
    · simp [task_completion_handle.move_assign, hdst, task_dynamic_state.release, hs2,
        hkey, hne0, World.update_state, Ne.symm hne, hs]
    · simp [task_completion_handle.move_assign, hdst, hsrc]

/-- Witness for the amended C10 at a concrete heap: moving from a handle over
state 0 into an empty handle; the moved-from handle ends empty and state 0's
reference count stays 2. -/
theorem completion_handle_move_amended_witness :
    (task_completion_handle.move_construct W_move ⟨some 0⟩).1 = W_move ∧
    (task_completion_handle.move_construct W_move ⟨some 0⟩).2.1 = ⟨some 0⟩ ∧
    (task_completion_handle.move_construct W_move ⟨some 0⟩).2.2 = ⟨none⟩ ∧
    task_completion_handle.to_bool (task_completion_handle.move_construct W_move ⟨some 0⟩).2.2
      = false ∧
    task_completion_handle.eq_nullptr
      (task_completion_handle.move_construct W_move ⟨some 0⟩).2.2 = true ∧
    ((⟨none⟩ : task_completion_handle).m_task_state = none →
       (task_completion_handle.move_assign (2 + 1) W_move ⟨none⟩ ⟨some 0⟩ false).1 = W_move ∧
       (task_completion_handle.move_assign (2 + 1) W_move ⟨none⟩ ⟨some 0⟩ false).2.1
         = ⟨some 0⟩ ∧
       (task_completion_handle.move_assign (2 + 1) W_move ⟨none⟩ ⟨some 0⟩ false).2.2
         = ⟨none⟩) ∧
    (∀ s2 st2, (⟨none⟩ : task_completion_handle).m_task_state = some s2 → s2 ≠ 0 →
       W_move.states s2 = some st2 →
       2 ≤ st2.m_num_references → st2.m_num_references < UINT64_CARD →
       (task_completion_handle.move_assign (2 + 1) W_move ⟨none⟩ ⟨some 0⟩ false).1.states 0
         = some ⟨0, .alive [], none, none, 2⟩ ∧
       (task_completion_handle.move_assign (2 + 1) W_move ⟨none⟩ ⟨some 0⟩ false).2.1
         = ⟨some 0⟩ ∧
       (task_completion_handle.move_assign (2 + 1) W_move ⟨none⟩ ⟨some 0⟩ false).2.2
         = ⟨none⟩) :=
  completion_handle_move_amended 2 W_move ⟨none⟩ ⟨some 0⟩ 0 ⟨0, .alive [], none, none, 2⟩
    rfl (by decide)

end TBB
